import Mathlib

/-!
# Verification of the NetExec execution-orchestration core (`src/nxc/netexec.py`)

This file gives a shallow embedding of the orchestration layer of
`nxc/netexec.py`: credential-id range expansion, target-list building,
the safety gates of the module-loading loop, the callback-server lifecycle,
and the `start_run` dispatch engine, together with theorems settling the
spec claims about them.

Modelling conventions:
* Python lists become Lean `List`s; mutation becomes explicit state passing.
* The `for cred_id in args.cred_id` loop, which mutates the list it iterates
  over, is modelled index-faithfully (CPython list iterators advance an index
  into the live list; `list.remove` deletes the first occurrence).
* `exit(1)` and uncaught exceptions are distinct outcomes (`exit1` / `crash`);
  both terminate the Python process with status 1.
* Interactive `input()` calls are modelled by a stream
  `answers : Nat → String` consumed in prompt order.
* Code of the repository that is not under `src/` (the `parse_targets`
  parser and the `NXCHTTPServer` class) is modelled from the spec; the
  definitions concerned say so in their doc comments.
-/

/-! ## Credential-id elements

`args.cred_id` starts as a list of CLI strings; the expansion loop appends
Python `int`s to it, so elements are strings or numbers.  The parsed range
endpoints are pieces of a `split("-")`, hence dash-free, hence non-negative:
`Nat` suffices for the numeric elements. -/

inductive CElem where
  | s (v : String)
  | n (v : Nat)
  deriving DecidableEq, Repr

/-- Python `str.split(sep)` for a one-character separator, on character
lists: splits at every occurrence of the separator, keeping empty pieces
(`"a-b".split("-") == ["a","b"]`, `"-".split("-") == ["", ""]`). -/
def pySplitChar (sep : Char) : List Char → List (List Char)
  | [] => [[]]
  | c :: r =>
    if c == sep then [] :: pySplitChar sep r
    else
      match pySplitChar sep r with
      | h :: t => (c :: h) :: t
      | [] => [[c]]

/-- `v.split("-")` as it appears on line 122, returned as strings. -/
def pySplitDash (v : String) : List String :=
  (pySplitChar '-' v.toList).map String.mk

/-- Python `str.lower()` restricted to ASCII (the only characters compared
against `["y", "yes", ""]`). -/
def pyLower (s : String) : String :=
  String.mk (s.toList.map fun c =>
    if 'A' ≤ c && c ≤ 'Z' then Char.ofNat (c.toNat + 32) else c)

/-- ASCII whitespace stripped by Python `int()` around a numeric literal. -/
def pyIsSpace (c : Char) : Bool :=
  c == ' ' || c == '\t' || c == '\n' || c == '\r' || c == '\x0b' || c == '\x0c'

/-- Strip leading and trailing whitespace, as Python `int()` does. -/
def pyStrip (cs : List Char) : List Char :=
  ((cs.dropWhile pyIsSpace).reverse.dropWhile pyIsSpace).reverse

/-- The test `"-" in str(cred_id)` from line 121: a `str` element is scanned
for a dash; `str` of a (non-negative) `int` never contains one. -/
def hasDash : CElem → Bool
  | .s v => v.toList.contains '-'
  | .n _ => false

/-- Valid body of a Python integer literal after sign: nonempty, first and
last characters digits, only digits and underscores, no two adjacent
underscores. -/
def pyDigitBody (cs : List Char) : Bool :=
  (match cs with | c :: _ => c.isDigit | [] => false) &&
  (match cs.reverse with | c :: _ => c.isDigit | [] => false) &&
  cs.all (fun c => c.isDigit || c == '_') &&
  !((cs.zip cs.tail).any fun p => p.1 == '_' && p.2 == '_')

/-- Numeric value of a digit body, skipping underscores. -/
def pyDigitVal (cs : List Char) : Nat :=
  cs.foldl (fun a c => if c.isDigit then a * 10 + (c.toNat - 48) else a) 0

/-- Modelled after Python `int(str)` restricted to the strings that occur
here (pieces of a `split("-")`, hence dash-free): optional surrounding ASCII
whitespace, an optional leading `+`, then digits with single underscores
allowed between digits.  Non-ASCII digit characters are not modelled. -/
def pyInt? (str : String) : Option Nat :=
  let t := pyStrip str.toList
  let body := match t with
    | '+' :: r => r
    | r => r
  if pyDigitBody body then some (pyDigitVal body) else none

/-- Outcome of the credential-id expansion loop (lines 119-129). -/
inductive CredOutcome where
  | ok (l : List CElem)
  | exit1
  | crash
  deriving DecidableEq, Repr

/-- One iteration of `for cred_id in args.cred_id` at iterator index `i`.
CPython list iterators read the live list at the current index, so a
`remove` at or before the index makes the following element shift under the
cursor and be skipped.

The body of the loop (lines 121-129): if the element contains a dash it is
split on every dash; unpacking into `start_id, end_id` raises (uncaught)
unless there are exactly two pieces; `int` failure on either piece is caught
and turns into `exit(1)`; otherwise `range(int(start), int(end) + 1)` is
appended element by element and then the original expression is removed
(first occurrence). -/
def credStep (l : List CElem) (i : Nat) : (List CElem × Nat) ⊕ CredOutcome :=
  match l[i]? with
  | none => Sum.inr (CredOutcome.ok l)
  | some e =>
    if hasDash e then
      match e with
      | .n _ => Sum.inr CredOutcome.crash
      | .s v =>
        match pySplitDash v with
        | [a, b] =>
          match pyInt? a, pyInt? b with
          | some x, some y =>
              Sum.inl ((l ++ (List.range' x (y + 1 - x)).map CElem.n).erase (CElem.s v), i + 1)
          | _, _ => Sum.inr CredOutcome.exit1
        | _ => Sum.inr CredOutcome.crash
    else Sum.inl (l, i + 1)

/-- Fueled iteration of `credStep`; `none` means the fuel ran out. -/
def credLoop : Nat → List CElem → Nat → Option CredOutcome
  | 0, _, _ => none
  | f + 1, l, i =>
    match credStep l i with
    | Sum.inr o => some o
    | Sum.inl (l', i') => credLoop f l' i'

/-- Upper bound on the number of elements a single list element can append
during the loop. -/
def widthBound : CElem → Nat
  | .n _ => 0
  | .s v =>
    match pySplitDash v with
    | [a, b] =>
      match pyInt? a, pyInt? b with
      | some x, some y => y + 1 - x
      | _, _ => 0
    | _ => 0

/-- Fuel that always suffices: one unit per element ever present plus the
final bounds check (each loop iteration examines a fresh element occurrence,
and appended numbers never append further). -/
def credFuel (l : List CElem) : Nat :=
  l.length + (l.map widthBound).sum + 1

/-- The credential-id expansion of lines 119-129, started at index 0. -/
def credExpand (l : List CElem) : Option CredOutcome :=
  credLoop (credFuel l) l 0

/-! ## Target-list building (lines 131-144) -/

/-- A raw target input: either a literal expression handed to
`parse_targets`, or an existing file whose parser (nmap / nessus / plain
list, all outside `src/`) yields a list of addresses. -/
inductive TargetInput where
  | lit (s : String)
  | file (parsed : List String)

/-- Modelled from the spec: `parse_targets` (`nxc/parsers/ip.py`, not under
`src/`).  The spec says literal host expressions are parsed as target
addresses, so a literal single-address expression yields exactly that
address; range/CIDR expansion is irrelevant to the claims and not
modelled. -/
def parse_targets (s : String) : List String := [s]

/-- The target-building loop of `main` (lines 131-144): each input's parsed
targets are appended with `targets.extend(...)` in input order. -/
def buildTargets (parse : String → List String) : List TargetInput → List String
  | [] => []
  | .lit s :: rest => parse s ++ buildTargets parse rest
  | .file ps :: rest => ps ++ buildTargets parse rest

/-! ## The dispatch engine `start_run` (lines 55-74)

`start_run` is an `async def` with no internal `await`; `asyncio.run`
executes it synchronously.  Each `executor.submit` wraps the handler call in
a future that captures any exception; nothing ever calls `Future.result()`,
so handler exceptions stay inside their future.  The `with` block around the
executor joins every submitted unit before `start_run` returns, which is
modelled by the returned trace holding the completed result of every
submission. -/

deriving instance DecidableEq for Except

/-- Observable trace of one `start_run` call. -/
structure RunTrace where
  maxWorkers : Nat
  submitted : List String
  futures : List (Except String Unit)
  progressShown : Bool
  progressUpdates : List (Nat × Nat)
  deriving DecidableEq, Repr

/-- `start_run(protocol_obj, args, db, targets)`.  The handler models
`protocol_obj(args, db, target)`; a `.error` result is a raised exception
captured by the future. -/
def start_run (noProgress : Bool) (threads : Nat) (handler : String → Except String Unit)
    (targets : List String) : RunTrace :=
  if noProgress || targets.length == 1 then
    { maxWorkers := threads + 1
      submitted := targets
      futures := targets.map fun t => handler t
      progressShown := false
      progressUpdates := [] }
  else
    { maxWorkers := threads + 1
      submitted := targets
      futures := targets.map fun t => handler t
      progressShown := true
      progressUpdates := (List.range targets.length).map fun k => (k + 1, targets.length) }

/-- A handler that always succeeds, used for concrete scenarios. -/
def okHandler : String → Except String Unit := fun _ => Except.ok ()

/-! ## The `main` pipeline (lines 77-272)

Omitted as irrelevant to every claim: logging setup, the rlimit raise, the
`librlers` probe, first-run setup, the powershell-obfuscation hack, and the
protocol/database loading internals (their objects are opaque here; the
handler callable reappears in `start_run`). -/

/-- Capability surface of a loaded module, as `main` reads it: the flags
`opsec_safe` and `multiple_hosts`, presence of the `on_request` /
`has_response` lifecycle hooks, and an optional forced `required_server`
kind. -/
structure NxcModule where
  name : String
  opsec_safe : Bool
  multiple_hosts : Bool
  has_on_request : Bool
  has_has_response : Bool
  required_server : Option String
  deriving DecidableEq, Repr

/-- Which `input()` prompt was issued. -/
inductive PromptKind where
  | opsec
  | multiHost
  | ntds
  deriving DecidableEq, Repr

/-- One issued prompt together with the operator's reply. -/
structure Prompt where
  kind : PromptKind
  answer : String
  deriving DecidableEq, Repr

/-- What `asyncio.run(start_run(...))` does: returns normally, raises
`KeyboardInterrupt` (caught on line 267), or raises some other exception
(propagates after the `finally` block). -/
inductive DispatchOutcome where
  | normal
  | interrupted
  | raised
  deriving DecidableEq, Repr

/-- The run inputs: parsed CLI arguments (`args`), global configuration
(`ignore_opsec`), environment (`krb5ccname`), the module registry produced
by `ModuleLoader.list_modules`, the operator's prompt replies, the protocol
handler behaviour, and the dispatch outcome. -/
structure Cfg where
  protocol : Option String
  key_file : Bool
  password : Bool
  use_kcache : Bool
  krb5ccname : Bool
  cred_id : List CElem
  target : List TargetInput
  module : List String
  list_modules : Bool
  show_module_options : Bool
  server : String
  server_port : Nat
  server_host : String
  threads : Nat
  no_progress : Bool
  ntds : Bool
  userntds : Bool
  registry : List (String × NxcModule)
  answers : Nat → String
  ignore_opsec : Bool
  handler : String → Except String Unit
  dispatchOutcome : DispatchOutcome

/-- Mutable state threaded through the module-loading loop: the two mutated
`args` fields, the `module_server` variable, and the observable events
(servers started, addresses bound, modules attached to the protocol object,
prompts issued).  Server identities are the index of the requesting module
in `args.module`. -/
structure MState where
  server : String
  server_port : Nat
  module_server : Option Nat
  started : List Nat
  bound : List (String × Nat)
  attached : List NxcModule
  prompts : List Prompt
  pidx : Nat
  deriving DecidableEq, Repr

/-- Initial loop state, taken from the run configuration. -/
def MState.init (cfg : Cfg) : MState :=
  { server := cfg.server
    server_port := cfg.server_port
    module_server := none
    started := []
    bound := []
    attached := []
    prompts := []
    pidx := 0 }

/-- How a pre-dispatch termination happened: `exit(1)`, or an uncaught
exception (both give process status 1). -/
inductive LoopExit where
  | exit1
  | crash
  deriving DecidableEq, Repr

/-- Replies accepted by both safety prompts (line 211 and line 221):
`ans.lower() in ["y", "yes", ""]`. -/
def yesAnswers : List String := ["y", "yes", ""]

/-- The opsec gate (lines 200-212): an opsec-unsafe module is waved through
when `ignore_opsec` is set in the configuration, otherwise the operator is
prompted and any reply whose lowercase form is not `y`/`yes`/empty is
`exit(1)`. -/
def opsecGate (cfg : Cfg) (st : MState) (m : NxcModule) : Except (MState × LoopExit) MState :=
  if !m.opsec_safe then
    if cfg.ignore_opsec then Except.ok st
    else
      let ans := cfg.answers st.pidx
      let st' := { st with prompts := st.prompts ++ [⟨PromptKind.opsec, ans⟩], pidx := st.pidx + 1 }
      if yesAnswers.contains (pyLower ans) then Except.ok st'
      else Except.error (st', LoopExit.exit1)
  else Except.ok st

/-- The multi-host gate (lines 214-222): a module with `multiple_hosts ==
False` facing more than one target prompts with the same accept/abort
semantics; a single target (or none) asks nothing. -/
def multiHostGate (cfg : Cfg) (tcount : Nat) (st : MState) (m : NxcModule) :
    Except (MState × LoopExit) MState :=
  if !m.multiple_hosts && decide (tcount > 1) then
    let ans := cfg.answers st.pidx
    let st' := { st with prompts := st.prompts ++ [⟨PromptKind.multiHost, ans⟩], pidx := st.pidx + 1 }
    if yesAnswers.contains (pyLower ans) then Except.ok st'
    else Except.error (st', LoopExit.exit1)
  else Except.ok st

/-- The fixed kind-to-port table `server_port_dict` of line 117; a Python
`dict`, so a missing key raises `KeyError`. -/
def server_port_dict : String → Option Nat :=
  fun k => (([("http", 80), ("https", 443), ("smb", 445)] : List (String × Nat)).lookup k)

/-- Modelled from the spec: `NXCHTTPServer` (`nxc/servers/http.py`, not
under `src/`).  The spec's callback-server contract binds the listener to
`(host, port)` once and makes a second loading attempt fail (the code
comments "loading a module server multiple times will obviously fail"); the
bind happens when the server object is constructed, so a failed construction
leaves the `module_server` variable untouched.  The whole `try` block of
lines 232-243 (context creation, construction, `start`, attach) is modelled
with bind conflict as its only failure; any failure is caught and logged and
the loop continues (lines 244-245). -/
def serverTry (cfg : Cfg) (st : MState) (idx : Nat) : MState :=
  if st.bound.contains (cfg.server_host, st.server_port) then st
  else
    { st with
      bound := st.bound ++ [(cfg.server_host, st.server_port)]
      started := st.started ++ [idx]
      module_server := some idx }

/-- The module-server block (lines 224-245): when the module has an
`on_request` or `has_response` hook, a forced `required_server` overwrites
`args.server`; an unset (falsy) `args.server_port` is resolved through
`server_port_dict[args.server]` (`KeyError`, hence a crash, when the kind is
not in the table); then the server is constructed and started inside the
`try`. -/
def serverBlock (cfg : Cfg) (st : MState) (idx : Nat) (m : NxcModule) :
    Except (MState × LoopExit) MState :=
  if m.has_on_request || m.has_has_response then
    let st1 := match m.required_server with
      | some k => { st with server := k }
      | none => st
    if st1.server_port == 0 then
      match server_port_dict st1.server with
      | none => Except.error (st1, LoopExit.crash)
      | some p => Except.ok (serverTry cfg { st1 with server_port := p } idx)
    else Except.ok (serverTry cfg st1 idx)
  else Except.ok st

/-- Lines 250-252: the module is appended to the protocol object's module
list. -/
def attachModule (st : MState) (m : NxcModule) : MState :=
  { st with attached := st.attached ++ [m] }

/-- Processing of one loaded module inside the loop of lines 192-253:
opsec gate, multi-host gate, module-server block, attach. -/
def processModule (cfg : Cfg) (tcount : Nat) (st : MState) (idx : Nat) (m : NxcModule) :
    Except (MState × LoopExit) MState := do
  let st1 ← opsecGate cfg st m
  let st2 ← multiHostGate cfg tcount st1 m
  let st3 ← serverBlock cfg st2 idx m
  Except.ok (attachModule st3 m)

/-- The loop `for m in map(str.lower, args.module)` (lines 192-253): names
arrive already lowercased; an unknown name is `exit(1)` (lines 193-195),
otherwise the module is initialised from the registry and processed. -/
def moduleLoop (cfg : Cfg) (tcount : Nat) :
    List String → Nat → MState → Except (MState × LoopExit) MState
  | [], _, st => Except.ok st
  | name :: rest, idx, st =>
    match cfg.registry.lookup name with
    | none => Except.error (st, LoopExit.exit1)
    | some m => do
      let st' ← processModule cfg tcount st idx m
      moduleLoop cfg tcount rest (idx + 1) st'

/-- The ntds safety prompt (lines 255-263): dumping ntds without
`--user` prompts; a non-yes reply is `exit(1)`. -/
def ntdsGate (cfg : Cfg) (st : MState) : Except (MState × LoopExit) MState :=
  if cfg.ntds && !cfg.userntds then
    let ans := cfg.answers st.pidx
    let st' := { st with prompts := st.prompts ++ [⟨PromptKind.ntds, ans⟩], pidx := st.pidx + 1 }
    if yesAnswers.contains (pyLower ans) then Except.ok st'
    else Except.error (st', LoopExit.exit1)
  else Except.ok st

/-- Observable result of one whole `main` invocation.  `stopped` records the
servers on which `shutdown()` was called; `exitCode` is the process exit
status (an uncaught exception also yields status 1, with `crashed` set). -/
structure RunResult where
  exitCode : Nat
  crashed : Bool
  reachedDispatch : Bool
  dispatched : List String
  progressShown : Bool
  prompts : List Prompt
  started : List Nat
  stopped : List Nat
  attached : List NxcModule
  deriving DecidableEq, Repr

/-- A termination before the dispatch call: `sys.exit` / an uncaught
exception propagates out of `main` without running the `finally` of lines
269-272, so no `shutdown()` is ever issued on these paths. -/
def preDispatchExit (code : Nat) (crashed : Bool) (st : MState) : RunResult :=
  { exitCode := code
    crashed := crashed
    reachedDispatch := false
    dispatched := []
    progressShown := false
    prompts := st.prompts
    started := st.started
    stopped := []
    attached := st.attached }

/-- Everything `main` does before `asyncio.run(start_run(...))`, in source
order: missing protocol, the ssh key-file precondition, the Kerberos-cache
precondition, credential-id expansion, target building, the listing exits,
the module loop, the ntds prompt.  `Sum.inl (st, code, crashed)` is a
termination before dispatch; `Sum.inr (st, targets)` proceeds to
dispatch. -/
def preDispatch (cfg : Cfg) : (MState × Nat × Bool) ⊕ (MState × List String) :=
  let st0 := MState.init cfg
  if cfg.protocol.isNone then Sum.inl (st0, 1, false)
  else if cfg.protocol == some "ssh" && cfg.key_file && !cfg.password then
    Sum.inl (st0, 1, false)
  else if cfg.use_kcache && !cfg.krb5ccname then Sum.inl (st0, 1, false)
  else
    match credExpand cfg.cred_id with
    | some CredOutcome.exit1 => Sum.inl (st0, 1, false)
    | some CredOutcome.crash => Sum.inl (st0, 1, true)
    | none => Sum.inl (st0, 1, true)
    | some (CredOutcome.ok _) =>
      let targets := buildTargets parse_targets cfg.target
      if cfg.list_modules then Sum.inl (st0, 0, false)
      else if !cfg.module.isEmpty && cfg.show_module_options then Sum.inl (st0, 0, false)
      else
        match moduleLoop cfg targets.length (cfg.module.map pyLower) 0 st0 with
        | Except.error (st, LoopExit.exit1) => Sum.inl (st, 1, false)
        | Except.error (st, LoopExit.crash) => Sum.inl (st, 1, true)
        | Except.ok st =>
          match ntdsGate cfg st with
          | Except.error (st', LoopExit.exit1) => Sum.inl (st', 1, false)
          | Except.error (st', LoopExit.crash) => Sum.inl (st', 1, true)
          | Except.ok st' => Sum.inr (st', targets)

/-- The dispatch call and the guarded teardown (lines 265-272): the
`finally` block always runs after `asyncio.run`, shutting the module server
down (if any) and disposing the engine; a `KeyboardInterrupt` is caught
(exit 0), any other exception propagates (status 1). -/
def dispatchResult (cfg : Cfg) (st : MState) (targets : List String) : RunResult :=
  let tr := start_run cfg.no_progress cfg.threads cfg.handler targets
  { exitCode := match cfg.dispatchOutcome with
      | DispatchOutcome.normal => 0
      | DispatchOutcome.interrupted => 0
      | DispatchOutcome.raised => 1
    crashed := cfg.dispatchOutcome == DispatchOutcome.raised
    reachedDispatch := true
    dispatched := tr.submitted
    progressShown := tr.progressShown
    prompts := st.prompts
    started := st.started
    stopped := match st.module_server with
      | some j => [j]
      | none => []
    attached := st.attached }

/-- The `main` pipeline from the protocol requirement (line 102) to the
teardown (lines 265-272). -/
def mainRun (cfg : Cfg) : RunResult :=
  match preDispatch cfg with
  | Sum.inl (st, code, crashed) => preDispatchExit code crashed st
  | Sum.inr (st, targets) => dispatchResult cfg st targets

/-! ## Concrete scenarios -/

/-- A benign baseline configuration: protocol smb, one target, no modules,
every prompt answered with an empty accept. -/
def baseCfg : Cfg :=
  { protocol := some "smb"
    key_file := false
    password := false
    use_kcache := false
    krb5ccname := false
    cred_id := []
    target := [TargetInput.lit "10.0.0.1"]
    module := []
    list_modules := false
    show_module_options := false
    server := "https"
    server_port := 0
    server_host := "127.0.0.1"
    threads := 10
    no_progress := false
    ntds := false
    userntds := false
    registry := []
    answers := fun _ => ""
    ignore_opsec := false
    handler := okHandler
    dispatchOutcome := DispatchOutcome.normal }

/-- A module that needs a callback server and trips no gate. -/
def srvModule : NxcModule :=
  { name := "srv"
    opsec_safe := true
    multiple_hosts := true
    has_on_request := true
    has_has_response := false
    required_server := some "http" }

/-- An opsec-unsafe module with no other requirement. -/
def unsafeModule : NxcModule :=
  { name := "unsafe"
    opsec_safe := false
    multiple_hosts := true
    has_on_request := false
    has_has_response := false
    required_server := none }

/-- The targets contributed by one raw input. -/
def parsedOf (parse : String → List String) : TargetInput → List String
  | .lit s => parse s
  | .file ps => ps

/-- The state a prompt leaves behind: reply recorded, cursor advanced. -/
def promptedState (st : MState) (k : PromptKind) (ans : String) : MState :=
  { st with prompts := st.prompts ++ [⟨k, ans⟩], pidx := st.pidx + 1 }

/-- A run declining the opsec prompt of its single requested module. -/
def cfgDecline : Cfg :=
  { baseCfg with
    module := ["unsafe"]
    registry := [("unsafe", unsafeModule)]
    answers := fun _ => "n" }

/-- Invariant threaded through the module loop: either no server was ever
started (and nothing is bound), or exactly one was, its identity is held in
`module_server`, the single bound address is the current `(host, port)`,
and the port is nonzero (so later modules resolve to the same address and
their bind fails). -/
def ServerInv (cfg : Cfg) (st : MState) : Prop :=
  (st.module_server = none ∧ st.started = [] ∧ st.bound = []) ∨
  (∃ j, st.module_server = some j ∧ st.started = [j] ∧
    st.bound = [(cfg.server_host, st.server_port)] ∧ st.server_port ≠ 0)

/-- `ServerInv` lifted to a gate result, error payloads included. -/
def ResInv (cfg : Cfg) : Except (MState × LoopExit) MState → Prop
  | Except.ok st => ServerInv cfg st
  | Except.error (st, _) => ServerInv cfg st

/-- Full characterization of a `preDispatch` result: the carried state
satisfies the server invariant; a pre-dispatch termination has exit code 1
unless it is one of the two listing exits; and reaching dispatch implies
the module loop succeeded and the targets are the built list. -/
def PDFull (cfg : Cfg) : (MState × Nat × Bool) ⊕ (MState × List String) → Prop
  | Sum.inl (st, code, _) =>
    ServerInv cfg st ∧
      (code = 1 ∨ cfg.list_modules = true ∨
        (cfg.module.isEmpty = false ∧ cfg.show_module_options = true))
  | Sum.inr (st, ts) =>
    ServerInv cfg st ∧ ts = buildTargets parse_targets cfg.target ∧
      ∃ st2, moduleLoop cfg (buildTargets parse_targets cfg.target).length
        (cfg.module.map pyLower) 0 (MState.init cfg) = Except.ok st2

/-- A run whose first module starts a callback server and whose second
module's opsec prompt is declined. -/
def cfgServerThenDecline : Cfg :=
  { baseCfg with
    module := ["srv", "unsafe"]
    registry := [("srv", srvModule), ("unsafe", unsafeModule)]
    answers := fun _ => "n" }

/-- A run requesting two server-requiring modules. -/
def cfgTwoServers : Cfg :=
  { baseCfg with
    module := ["srv", "srv2"]
    registry := [("srv", srvModule),
      ("srv2", { srvModule with name := "srv2", required_server := some "https" })] }

/-- State of the module loop after one server got bound to port 80. -/
def stPort80 : MState :=
  { MState.init baseCfg with
    server := "http"
    server_port := 80
    bound := [("127.0.0.1", 80)] }

/-! ## Lemmas about the credential-id loop -/

theorem credStep_done {l : List CElem} {i : Nat} (h : l[i]? = none) :
    credStep l i = Sum.inr (CredOutcome.ok l) := by
  simp [credStep, h]

theorem credStep_skip {l : List CElem} {i : Nat} {e : CElem} (h : l[i]? = some e)
    (hd : hasDash e = false) : credStep l i = Sum.inl (l, i + 1) := by
  simp [credStep, h, hd]

theorem credStep_range {l : List CElem} {i : Nat} {v p1 p2 : String} {x y : Nat}
    (h : l[i]? = some (CElem.s v)) (hd : hasDash (CElem.s v) = true)
    (hsp : pySplitDash v = [p1, p2]) (hx : pyInt? p1 = some x) (hy : pyInt? p2 = some y) :
    credStep l i =
      Sum.inl ((l ++ (List.range' x (y + 1 - x)).map CElem.n).erase (CElem.s v), i + 1) := by
  simp [credStep, h, hd, hsp, hx, hy]

theorem credStep_badint {l : List CElem} {i : Nat} {v p1 p2 : String}
    (h : l[i]? = some (CElem.s v)) (hd : hasDash (CElem.s v) = true)
    (hsp : pySplitDash v = [p1, p2]) (hbad : pyInt? p1 = none ∨ pyInt? p2 = none) :
    credStep l i = Sum.inr CredOutcome.exit1 := by
  rcases hbad with hb | hb
  · simp [credStep, h, hd, hsp, hb]
  · cases hx : pyInt? p1 <;> simp [credStep, h, hd, hsp, hx, hb]

theorem credLoop_succ {f : Nat} {l : List CElem} {i : Nat} :
    credLoop (f + 1) l i =
      match credStep l i with
      | Sum.inr o => some o
      | Sum.inl (l', i') => credLoop f l' i' := rfl

/-- Once every element at or after the cursor is dash-free, the loop just
walks to the end and leaves the list unchanged. -/
theorem credLoop_nodash : ∀ (f : Nat) (l : List CElem) (i : Nat),
    (∀ e ∈ l.drop i, hasDash e = false) → l.length - i < f →
    credLoop f l i = some (CredOutcome.ok l) := by
  intro f
  induction f with
  | zero => intro l i _ h; omega
  | succ f ih =>
    intro l i hnd hlt
    cases hget : l[i]? with
    | none => rw [credLoop_succ, credStep_done hget]
    | some e =>
      have hi : i < l.length := by
        by_contra hle
        push_neg at hle
        rw [List.getElem?_eq_none hle] at hget
        cases hget
      have hdrop : l.drop i = l[i] :: l.drop (i + 1) := List.drop_eq_getElem_cons hi
      have hie : l[i] = e := by
        have hg := List.getElem?_eq_getElem hi
        rw [hg] at hget
        exact Option.some.inj hget
      have hd : hasDash e = false := hnd e (by rw [hdrop, hie]; exact List.mem_cons_self _ _)
      rw [credLoop_succ, credStep_skip hget hd]
      apply ih l (i + 1)
      · intro e' he'
        exact hnd e' (by rw [hdrop]; exact List.mem_cons_of_mem _ he')
      · omega

/-- Without an occurrence of the separator, `split` returns the whole
string as a single piece. -/
theorem pySplitChar_of_not_mem {sep : Char} : ∀ cs : List Char,
    sep ∉ cs → pySplitChar sep cs = [cs] := by
  intro cs
  induction cs with
  | nil => intro _; rfl
  | cons c r ih =>
    intro h
    have h1 : sep ≠ c := fun e => h (e ▸ List.mem_cons_self _ _)
    have h2 : sep ∉ r := fun m => h (List.mem_cons_of_mem _ m)
    have hc : (c == sep) = false := beq_eq_false_iff_ne.mpr fun e => h1 e.symm
    simp [pySplitChar, hc, ih h2]

theorem pySplitDash_of_nodash {v : String} (h : hasDash (CElem.s v) = false) :
    pySplitDash v = [v] := by
  have hmem : '-' ∉ v.toList := by
    intro hm
    have hc : v.toList.contains '-' = true := List.elem_eq_true_of_mem hm
    rw [show hasDash (CElem.s v) = v.toList.contains '-' from rfl, hc] at h
    cases h
  unfold pySplitDash
  rw [pySplitChar_of_not_mem v.toList hmem]
  rfl

theorem widthBound_nodash {e : CElem} (h : hasDash e = false) : widthBound e = 0 := by
  cases e with
  | n _ => rfl
  | s v => simp [widthBound, pySplitDash_of_nodash h]

/-- Claim C10 (corrected): when the expansion loop examines and removes the
range expression at the head of the list, the expression immediately
following it shifts under the cursor and is never examined, so it is left
unexpanded at the head of the final list (any further elements being
dash-free); in particular `["1-2", "3-4"]` ends as `["3-4", 1, 2]`.  The
claim's unrestricted quantification fails when the first expression of the
pair is itself skipped (see the counterexample). -/
theorem c10_iteration_skip :
    (∀ (r1 r2 : String) (rest : List CElem) (p1 p2 : String) (x y : Nat),
      hasDash (CElem.s r1) = true →
      pySplitDash r1 = [p1, p2] →
      pyInt? p1 = some x → pyInt? p2 = some y →
      hasDash (CElem.s r2) = true →
      (∀ e ∈ rest, hasDash e = false) →
      credExpand (CElem.s r1 :: CElem.s r2 :: rest) =
        some (CredOutcome.ok
          (CElem.s r2 :: (rest ++ (List.range' x (y + 1 - x)).map CElem.n)))) ∧
    credExpand [CElem.s "1-2", CElem.s "3-4"] =
      some (CredOutcome.ok [CElem.s "3-4", CElem.n 1, CElem.n 2]) := by
  constructor
  · intro r1 r2 rest p1 p2 x y hd1 hsp hx hy _hq hrest
    have hw1 : widthBound (CElem.s r1) = y + 1 - x := by
      simp [widthBound, hsp, hx, hy]
    have hsum : (rest.map widthBound).sum = 0 := by
      apply List.sum_eq_zero
      intro w hw
      obtain ⟨e, he, rfl⟩ := List.mem_map.mp hw
      exact widthBound_nodash (hrest e he)
    have hfuel : credFuel (CElem.s r1 :: CElem.s r2 :: rest) =
        (rest.length + (y + 1 - x) + widthBound (CElem.s r2) + 2) + 1 := by
      simp [credFuel, hw1, hsum]
      omega
    unfold credExpand
    rw [hfuel, credLoop_succ,
      credStep_range (l := CElem.s r1 :: CElem.s r2 :: rest) (i := 0) rfl hd1 hsp hx hy]
    have herase :
        ((CElem.s r1 :: CElem.s r2 :: rest) ++ (List.range' x (y + 1 - x)).map CElem.n).erase
            (CElem.s r1) =
          CElem.s r2 :: (rest ++ (List.range' x (y + 1 - x)).map CElem.n) := by
      rw [List.cons_append, List.cons_append, List.erase_cons_head]
    rw [herase]
    apply credLoop_nodash
    · intro e he
      rw [List.drop_succ_cons, List.drop_zero] at he
      rcases List.mem_append.mp he with h | h
      · exact hrest e h
      · obtain ⟨k, _, rfl⟩ := List.mem_map.mp h
        rfl
    · simp
      omega
  · decide

/-- Claim C10's universal form is false: in
`["3-4", "1-2", "3-4"]` the range expression `"1-2"` is immediately
followed by the range expression `"3-4"`, yet the final list contains no
unexpanded `"3-4"` at all (the processing of the first element skipped
`"1-2"` and the cursor landed on the following `"3-4"`, which was expanded
and removed). -/
theorem c10_universal_counterexample :
    credExpand [CElem.s "3-4", CElem.s "1-2", CElem.s "3-4"] =
      some (CredOutcome.ok
        [CElem.s "1-2", CElem.n 3, CElem.n 4, CElem.n 3, CElem.n 4]) ∧
    CElem.s "3-4" ∉
      [CElem.s "1-2", CElem.n 3, CElem.n 4, CElem.n 3, CElem.n 4] := by
  decide

/-- Witness: the general part of `c10_iteration_skip` applied to the
two-element list `["1-2", "3-4"]`. -/
theorem c10_witness :
    credExpand [CElem.s "1-2", CElem.s "3-4"] =
      some (CredOutcome.ok
        (CElem.s "3-4" :: (([] : List CElem) ++ (List.range' 1 (2 + 1 - 1)).map CElem.n))) :=
  c10_iteration_skip.1 "1-2" "3-4" [] "1" "2" 1 2 (by decide) (by decide) (by decide)
    (by decide) (by decide) (fun e he => absurd he (List.not_mem_nil e))

/-- Claim C2 (corrected): a range expression `a-b` that the iteration
actually examines and whose two endpoints parse as integers gets the
integers `a..b` appended and the original expression removed (first
occurrence); when `a > b` the appended range is empty and the expression is
still removed, with no abort; an examined range expression with a
non-integer endpoint makes the run exit with code 1 before any dispatch. -/
theorem c2_range_expansion :
    (∀ (l : List CElem) (i : Nat) (v p1 p2 : String) (x y : Nat),
      l[i]? = some (CElem.s v) → hasDash (CElem.s v) = true →
      pySplitDash v = [p1, p2] → pyInt? p1 = some x → pyInt? p2 = some y →
      credStep l i =
        Sum.inl ((l ++ (List.range' x (y + 1 - x)).map CElem.n).erase (CElem.s v), i + 1)) ∧
    (∀ x y : Nat, y < x → (List.range' x (y + 1 - x)).map CElem.n = []) ∧
    (∀ (l : List CElem) (i : Nat) (v p1 p2 : String),
      l[i]? = some (CElem.s v) → hasDash (CElem.s v) = true →
      pySplitDash v = [p1, p2] → (pyInt? p1 = none ∨ pyInt? p2 = none) →
      credStep l i = Sum.inr CredOutcome.exit1) ∧
    (∀ cfg : Cfg, cfg.protocol.isNone = false →
      (cfg.protocol == some "ssh" && cfg.key_file && !cfg.password) = false →
      (cfg.use_kcache && !cfg.krb5ccname) = false →
      credExpand cfg.cred_id = some CredOutcome.exit1 →
      (mainRun cfg).exitCode = 1 ∧ (mainRun cfg).dispatched = [] ∧
        (mainRun cfg).reachedDispatch = false) := by
  refine ⟨?_, ?_, ?_, ?_⟩
  · intro l i v p1 p2 x y h hd hsp hx hy
    exact credStep_range h hd hsp hx hy
  · intro x y hlt
    have : y + 1 - x = 0 := by omega
    rw [this]
    rfl
  · intro l i v p1 p2 h hd hsp hbad
    exact credStep_badint h hd hsp hbad
  · intro cfg h1 h2 h3 hcred
    simp [mainRun, preDispatch, h1, h2, h3, hcred, preDispatchExit]

/-- Claim C2's abort requirement is false for inverted ranges: `"5-3"` is
malformed by the claim's definition (`a > b`), yet the run does not abort:
the expression is removed, nothing is appended, and dispatch proceeds with
exit code 0. -/
theorem c2_inverted_range_counterexample :
    credExpand [CElem.s "5-3"] = some (CredOutcome.ok []) ∧
    (mainRun { baseCfg with cred_id := [CElem.s "5-3"] }).exitCode = 0 ∧
    (mainRun { baseCfg with cred_id := [CElem.s "5-3"] }).reachedDispatch = true := by
  decide

/-- Witness: `c2_range_expansion` applied to `"5-7"` (in-order range),
`"5-x"` (non-integer endpoint), and a run whose credential-id list makes
the expansion exit. -/
theorem c2_witness :
    (credStep [CElem.s "5-7"] 0 =
      Sum.inl ((([CElem.s "5-7"] ++ (List.range' 5 (7 + 1 - 5)).map CElem.n).erase
        (CElem.s "5-7")), 1)) ∧
    (List.range' 5 (3 + 1 - 5)).map CElem.n = [] ∧
    credStep [CElem.s "5-x"] 0 = Sum.inr CredOutcome.exit1 ∧
    ((mainRun { baseCfg with cred_id := [CElem.s "5-x"] }).exitCode = 1 ∧
      (mainRun { baseCfg with cred_id := [CElem.s "5-x"] }).dispatched = [] ∧
      (mainRun { baseCfg with cred_id := [CElem.s "5-x"] }).reachedDispatch = false) :=
  ⟨c2_range_expansion.1 [CElem.s "5-7"] 0 "5-7" "5" "7" 5 7 (by decide) (by decide)
      (by decide) (by decide) (by decide),
    c2_range_expansion.2.1 5 3 (by decide),
    c2_range_expansion.2.2.1 [CElem.s "5-x"] 0 "5-x" "5" "x" (by decide) (by decide)
      (by decide) (Or.inr (by decide)),
    c2_range_expansion.2.2.2 { baseCfg with cred_id := [CElem.s "5-x"] } (by decide)
      (by decide) (by decide) (by decide)⟩

/-! ## Claims about target building and the dispatch engine -/

/-- Claim C1 (corrected): the built target list is the in-order
concatenation of each input's parsed targets; nothing is deduplicated, so
every occurrence of an address survives (the occurrence count of any
address in the built list is the sum of its counts across the inputs). -/
theorem c1_targets_concatenated :
    (∀ (parse : String → List String) (inputs : List TargetInput),
      buildTargets parse inputs = inputs.flatMap (parsedOf parse)) ∧
    (∀ (parse : String → List String) (inputs : List TargetInput) (t : String),
      (buildTargets parse inputs).count t =
        (inputs.map fun i => (parsedOf parse i).count t).sum) := by
  constructor
  · intro parse inputs
    induction inputs with
    | nil => rfl
    | cons i rest ih => cases i <;> simp [buildTargets, parsedOf, ih]
  · intro parse inputs t
    induction inputs with
    | nil => rfl
    | cons i rest ih => cases i <;> simp [buildTargets, parsedOf, List.count_append, ih]

/-- Claim C1's deduplication is false: the literal inputs
`["10.0.0.1", "10.0.0.1", "10.0.0.2"]` build the list
`["10.0.0.1", "10.0.0.1", "10.0.0.2"]`, not the deduplicated
`["10.0.0.1", "10.0.0.2"]` the claim requires. -/
theorem c1_dedup_counterexample :
    buildTargets parse_targets
        [TargetInput.lit "10.0.0.1", TargetInput.lit "10.0.0.1", TargetInput.lit "10.0.0.2"] =
      ["10.0.0.1", "10.0.0.1", "10.0.0.2"] ∧
    buildTargets parse_targets
        [TargetInput.lit "10.0.0.1", TargetInput.lit "10.0.0.1", TargetInput.lit "10.0.0.2"] ≠
      ["10.0.0.1", "10.0.0.2"] := by
  decide

/-- Claim C5 (confirmed): the executor is created with
`max_workers = threads + 1` in both branches, exactly one handler invocation
is submitted per target, in target-list order, and the returned trace holds
the completed future of every submission (the executor `with` block joins
them all before `start_run` returns). -/
theorem c5_dispatch_pool :
    ∀ (noProgress : Bool) (w : Nat) (handler : String → Except String Unit)
      (targets : List String),
      (start_run noProgress w handler targets).maxWorkers = w + 1 ∧
      (start_run noProgress w handler targets).submitted = targets ∧
      (start_run noProgress w handler targets).futures = targets.map handler ∧
      (start_run noProgress w handler targets).futures.length = targets.length := by
  intro np w h ts
  unfold start_run
  split <;> simp

/-- Claim C8 (confirmed): a handler exception is captured inside its own
future; every future still holds exactly the result of its own target's
handler call, and a run that reaches dispatch and is not externally
interrupted or crashed exits 0 no matter what the handlers returned. -/
theorem c8_failure_isolation :
    (∀ (noProgress : Bool) (w : Nat) (handler : String → Except String Unit)
        (targets : List String) (i : Nat) (t e : String),
      targets[i]? = some t → handler t = Except.error e →
      (start_run noProgress w handler targets).futures.length = targets.length ∧
      ∀ j : Nat, (start_run noProgress w handler targets).futures[j]? =
        (targets[j]?).map handler) ∧
    (∀ cfg : Cfg, (mainRun cfg).reachedDispatch = true →
      cfg.dispatchOutcome = DispatchOutcome.normal → (mainRun cfg).exitCode = 0) := by
  constructor
  · intro np w h ts i t e _ _
    have hfut : (start_run np w h ts).futures = ts.map h := by
      unfold start_run
      split <;> rfl
    refine ⟨by rw [hfut]; simp, ?_⟩
    intro j
    rw [hfut, List.getElem?_map]
  · intro cfg hreach hnorm
    unfold mainRun at hreach ⊢
    cases h : preDispatch cfg with
    | inl p =>
      obtain ⟨st, code, cr⟩ := p
      rw [h] at hreach
      simp [preDispatchExit] at hreach
    | inr p =>
      obtain ⟨st, ts⟩ := p
      simp [dispatchResult, hnorm]

/-- Witness: `c8_failure_isolation` at a two-target run whose handler
raises on the first target: both futures are present (siblings unaffected)
and a normally completing dispatch still exits 0. -/
theorem c8_witness :
    (∀ j : Nat,
      (start_run true 4
          (fun t => if t == "a" then Except.error "boom" else Except.ok ())
          ["a", "b"]).futures[j]? =
        ((["a", "b"] : List String)[j]?).map
          (fun t => if t == "a" then Except.error "boom" else Except.ok ())) ∧
    (mainRun baseCfg).exitCode = 0 :=
  ⟨(c8_failure_isolation.1 true 4
      (fun t => if t == "a" then Except.error "boom" else Except.ok ())
      ["a", "b"] 0 "a" "boom" (by decide) (by decide)).2,
    c8_failure_isolation.2 baseCfg (by decide) (by decide)⟩

/-- Claim C9 (corrected): the progress branch is taken exactly when
progress display is enabled and the target count differs from one (so also
for zero targets, where the claim's "more than one target" fails); both
branches use the same pool size and submit the same invocations, a single
target never renders progress and invokes the handler exactly once, and a
run that reaches dispatch on one target with progress disabled exits 0 when
dispatch completes normally. -/
theorem c9_progress_equivalence :
    (∀ (noProgress : Bool) (w : Nat) (handler : String → Except String Unit)
        (targets : List String),
      ((start_run noProgress w handler targets).progressShown = true ↔
        (noProgress = false ∧ targets.length ≠ 1)) ∧
      (start_run true w handler targets).maxWorkers =
        (start_run false w handler targets).maxWorkers ∧
      (start_run true w handler targets).submitted =
        (start_run false w handler targets).submitted ∧
      (start_run true w handler targets).futures =
        (start_run false w handler targets).futures ∧
      ((start_run noProgress w handler targets).progressShown = false →
        (start_run noProgress w handler targets).progressUpdates = [])) ∧
    (∀ (noProgress : Bool) (w : Nat) (handler : String → Except String Unit) (t : String),
      (start_run noProgress w handler [t]).futures = [handler t] ∧
      (start_run noProgress w handler [t]).progressShown = false) ∧
    (∀ (cfg : Cfg) (st : MState) (t : String),
      preDispatch cfg = Sum.inr (st, [t]) →
      cfg.dispatchOutcome = DispatchOutcome.normal →
      (mainRun cfg).exitCode = 0 ∧ (mainRun cfg).dispatched = [t] ∧
        (mainRun cfg).progressShown = false) := by
  refine ⟨?_, ?_, ?_⟩
  · intro np w h ts
    have heq : ∀ b : Bool, (start_run b w h ts).maxWorkers = w + 1 ∧
        (start_run b w h ts).submitted = ts ∧
        (start_run b w h ts).futures = ts.map fun t => h t := by
      intro b
      unfold start_run
      split <;> exact ⟨rfl, rfl, rfl⟩
    refine ⟨?_, ((heq true).1).trans ((heq false).1).symm,
      ((heq true).2.1).trans ((heq false).2.1).symm,
      ((heq true).2.2).trans ((heq false).2.2).symm, ?_⟩
    · cases np <;> by_cases hl : ts.length = 1 <;> simp [start_run, hl]
    · unfold start_run
      split
      · intro _
        rfl
      · intro hf
        simp at hf
  · intro np w h t
    constructor
    · unfold start_run
      split <;> rfl
    · unfold start_run
      rw [if_pos (by simp)]
  · intro cfg st t hpre hnorm
    unfold mainRun
    rw [hpre]
    refine ⟨by simp [dispatchResult, hnorm], ?_, ?_⟩
    · simp [dispatchResult, start_run]
    · simp [dispatchResult, start_run]

/-- Claim C9's "rendered iff more than one target" is false for an empty
target list: with progress enabled and zero targets the progress branch is
taken and the progress context (a live counter over zero targets) is
rendered, although the target count is not greater than one. -/
theorem c9_zero_targets_counterexample :
    (start_run false 4 okHandler []).progressShown = true ∧
    ¬ (([] : List String).length > 1) := by
  decide

/-- Witness: `c9_progress_equivalence` at one target with progress
disabled, and at a full run on the baseline configuration. -/
theorem c9_witness :
    ((start_run true 4 okHandler ["10.0.0.1"]).futures = [okHandler "10.0.0.1"] ∧
      (start_run true 4 okHandler ["10.0.0.1"]).progressShown = false) ∧
    ((mainRun { baseCfg with no_progress := true }).exitCode = 0 ∧
      (mainRun { baseCfg with no_progress := true }).dispatched = ["10.0.0.1"] ∧
      (mainRun { baseCfg with no_progress := true }).progressShown = false) :=
  ⟨c9_progress_equivalence.2.1 true 4 okHandler "10.0.0.1",
    c9_progress_equivalence.2.2 { baseCfg with no_progress := true }
      (MState.init { baseCfg with no_progress := true }) "10.0.0.1" (by decide) (by decide)⟩

/-! ## Claims about the safety gates and the module loop -/

/-- Claim C4 (confirmed): an opsec-unsafe module is attached silently when
the run-wide ignore flag is set; otherwise the operator is prompted and any
reply whose lowercase form is not `y`/`yes`/empty aborts the whole run with
exit code 1 before any dispatch; a module not supporting multiple hosts
prompts (with the same semantics) only when there is more than one target,
and never for a single target. -/
theorem c4_safety_gates :
    (∀ (cfg : Cfg) (st : MState) (m : NxcModule),
      m.opsec_safe = false → cfg.ignore_opsec = true → opsecGate cfg st m = Except.ok st) ∧
    (∀ (cfg : Cfg) (st : MState) (m : NxcModule),
      m.opsec_safe = false → cfg.ignore_opsec = false →
      (yesAnswers.contains (pyLower (cfg.answers st.pidx)) = true →
        opsecGate cfg st m =
          Except.ok (promptedState st PromptKind.opsec (cfg.answers st.pidx))) ∧
      (yesAnswers.contains (pyLower (cfg.answers st.pidx)) = false →
        opsecGate cfg st m =
          Except.error (promptedState st PromptKind.opsec (cfg.answers st.pidx),
            LoopExit.exit1))) ∧
    (∀ (cfg : Cfg) (st : MState) (m : NxcModule),
      m.opsec_safe = true → opsecGate cfg st m = Except.ok st) ∧
    (∀ (cfg : Cfg) (tcount : Nat) (st : MState) (m : NxcModule),
      m.multiple_hosts = false → tcount > 1 →
      (yesAnswers.contains (pyLower (cfg.answers st.pidx)) = true →
        multiHostGate cfg tcount st m =
          Except.ok (promptedState st PromptKind.multiHost (cfg.answers st.pidx))) ∧
      (yesAnswers.contains (pyLower (cfg.answers st.pidx)) = false →
        multiHostGate cfg tcount st m =
          Except.error (promptedState st PromptKind.multiHost (cfg.answers st.pidx),
            LoopExit.exit1))) ∧
    (∀ (cfg : Cfg) (tcount : Nat) (st : MState) (m : NxcModule),
      tcount ≤ 1 → multiHostGate cfg tcount st m = Except.ok st) ∧
    (∀ (cfg : Cfg) (tcount : Nat) (st : MState) (m : NxcModule),
      m.multiple_hosts = true → multiHostGate cfg tcount st m = Except.ok st) ∧
    (∀ (cfg : Cfg) (st : MState) (l : List CElem),
      cfg.protocol.isNone = false →
      (cfg.protocol == some "ssh" && cfg.key_file && !cfg.password) = false →
      (cfg.use_kcache && !cfg.krb5ccname) = false →
      credExpand cfg.cred_id = some (CredOutcome.ok l) →
      cfg.list_modules = false → cfg.show_module_options = false →
      moduleLoop cfg (buildTargets parse_targets cfg.target).length
          (cfg.module.map pyLower) 0 (MState.init cfg) =
        Except.error (st, LoopExit.exit1) →
      (mainRun cfg).exitCode = 1 ∧ (mainRun cfg).dispatched = [] ∧
        (mainRun cfg).reachedDispatch = false) := by
  refine ⟨?_, ?_, ?_, ?_, ?_, ?_, ?_⟩
  · intro cfg st m h1 h2
    simp [opsecGate, h1, h2]
  · intro cfg st m h1 h2
    constructor
    · intro hyes
      have hmem : pyLower (cfg.answers st.pidx) ∈ yesAnswers := by simpa using hyes
      simp [opsecGate, promptedState, h1, h2, hmem]
    · intro hno
      have hmem : pyLower (cfg.answers st.pidx) ∉ yesAnswers := by simpa using hno
      simp [opsecGate, promptedState, h1, h2, hmem]
  · intro cfg st m h1
    simp [opsecGate, h1]
  · intro cfg tcount st m h1 h2
    constructor
    · intro hyes
      have hmem : pyLower (cfg.answers st.pidx) ∈ yesAnswers := by simpa using hyes
      simp [multiHostGate, promptedState, h1, h2, hmem]
    · intro hno
      have hmem : pyLower (cfg.answers st.pidx) ∉ yesAnswers := by simpa using hno
      simp [multiHostGate, promptedState, h1, h2, hmem]
  · intro cfg tcount st m h1
    have : (!m.multiple_hosts && decide (tcount > 1)) = false := by
      simp
      omega
    simp [multiHostGate, this]
  · intro cfg tcount st m h1
    simp [multiHostGate, h1]
  · intro cfg st l h1 h2 h3 hcred hlm hso hml
    simp [mainRun, preDispatch, h1, h2, h3, hcred, hlm, hso, hml, preDispatchExit]

/-- Witness: `c4_safety_gates` at concrete gates and at a run whose opsec
prompt is declined. -/
theorem c4_witness :
    opsecGate { baseCfg with ignore_opsec := true } (MState.init baseCfg) unsafeModule =
      Except.ok (MState.init baseCfg) ∧
    opsecGate cfgDecline (MState.init cfgDecline) unsafeModule =
      Except.error (promptedState (MState.init cfgDecline) PromptKind.opsec "n",
        LoopExit.exit1) ∧
    multiHostGate baseCfg 1 (MState.init baseCfg) unsafeModule =
      Except.ok (MState.init baseCfg) ∧
    ((mainRun cfgDecline).exitCode = 1 ∧ (mainRun cfgDecline).dispatched = [] ∧
      (mainRun cfgDecline).reachedDispatch = false) :=
  ⟨c4_safety_gates.1 { baseCfg with ignore_opsec := true } (MState.init baseCfg)
      unsafeModule (by decide) (by decide),
    (c4_safety_gates.2.1 cfgDecline (MState.init cfgDecline) unsafeModule (by decide)
      (by decide)).2 (by decide),
    c4_safety_gates.2.2.2.2.1 baseCfg 1 (MState.init baseCfg) unsafeModule (by decide),
    c4_safety_gates.2.2.2.2.2.2 cfgDecline
      (promptedState (MState.init cfgDecline) PromptKind.opsec "n") [] (by decide)
      (by decide) (by decide) (by decide) (by decide) (by decide) (by decide)⟩

/-- Claim C7 (confirmed): for a module with a lifecycle hook, the server
kind is the forced `required_server` when present, else the configuration's
current kind; a falsy (unset) port is resolved through the fixed table
http→80, https→443, smb→445; a bind conflict when starting the server is
caught, recording no new start and aborting nothing, and the module is
still attached afterwards. -/
theorem c7_server_kind_port :
    (server_port_dict "http" = some 80 ∧ server_port_dict "https" = some 443 ∧
      server_port_dict "smb" = some 445) ∧
    (∀ (cfg : Cfg) (st : MState) (idx : Nat) (m : NxcModule),
      (m.has_on_request || m.has_has_response) = true →
      (st.server_port = 0 → ∀ p : Nat,
        server_port_dict (m.required_server.getD st.server) = some p →
        serverBlock cfg st idx m =
          Except.ok (serverTry cfg
            { st with server := m.required_server.getD st.server, server_port := p } idx)) ∧
      (st.server_port ≠ 0 →
        serverBlock cfg st idx m =
          Except.ok (serverTry cfg
            { st with server := m.required_server.getD st.server } idx))) ∧
    (∀ (cfg : Cfg) (st : MState) (idx : Nat),
      st.bound.contains (cfg.server_host, st.server_port) = false →
      serverTry cfg st idx =
        { st with
          bound := st.bound ++ [(cfg.server_host, st.server_port)]
          started := st.started ++ [idx]
          module_server := some idx }) ∧
    (∀ (cfg : Cfg) (st : MState) (idx : Nat),
      st.bound.contains (cfg.server_host, st.server_port) = true →
      serverTry cfg st idx = st) ∧
    (∀ (cfg : Cfg) (tcount : Nat) (st : MState) (idx : Nat) (m : NxcModule),
      m.opsec_safe = true → m.multiple_hosts = true →
      processModule cfg tcount st idx m =
        Except.map (fun s => attachModule s m) (serverBlock cfg st idx m)) := by
  refine ⟨by decide, ?_, ?_, ?_, ?_⟩
  · intro cfg st idx m hhook
    constructor
    · intro hport p htab
      cases hreq : m.required_server with
      | some k =>
        simp [hreq] at htab
        simp [serverBlock, hhook, hreq, hport, htab]
      | none =>
        simp [hreq] at htab
        simp [serverBlock, hhook, hreq, hport, htab]
    · intro hport
      cases hreq : m.required_server with
      | some k => simp [serverBlock, hhook, hreq, hport]
      | none => simp [serverBlock, hhook, hreq, hport]
  · intro cfg st idx h
    have hmem : (cfg.server_host, st.server_port) ∉ st.bound := by simpa using h
    simp [serverTry, hmem]
  · intro cfg st idx h
    have hmem : (cfg.server_host, st.server_port) ∈ st.bound := by simpa using h
    simp [serverTry, hmem]
  · intro cfg tcount st idx m h1 h2
    have hog : opsecGate cfg st m = Except.ok st := by simp [opsecGate, h1]
    have hmg : multiHostGate cfg tcount st m = Except.ok st := by simp [multiHostGate, h2]
    rw [processModule, hog]
    show (multiHostGate cfg tcount st m).bind _ = _
    rw [hmg]
    show (serverBlock cfg st idx m).bind _ = _
    cases hsb : serverBlock cfg st idx m <;> simp [Except.map, Except.bind]

/-! ## The callback-server singleton invariant -/

theorem serverInv_init (cfg : Cfg) : ServerInv cfg (MState.init cfg) :=
  Or.inl ⟨rfl, rfl, rfl⟩

theorem serverInv_prompted {cfg : Cfg} {st : MState} (k : PromptKind) (a : String)
    (h : ServerInv cfg st) : ServerInv cfg (promptedState st k a) := h

theorem serverInv_attach {cfg : Cfg} {st : MState} (m : NxcModule)
    (h : ServerInv cfg st) : ServerInv cfg (attachModule st m) := h

theorem server_port_dict_pos {k : String} {p : Nat} (h : server_port_dict k = some p) :
    p ≠ 0 := by
  intro hp
  subst hp
  simp only [server_port_dict, List.lookup] at h
  repeat' split at h
  all_goals simp_all

theorem serverInv_serverTry {cfg : Cfg} {st : MState} (idx : Nat)
    (h : ServerInv cfg st) (hp : st.server_port ≠ 0) :
    ServerInv cfg (serverTry cfg st idx) := by
  unfold serverTry
  split
  next hc =>
    exact h
  next hc =>
    rcases h with ⟨h1, h2, h3⟩ | ⟨j, h1, h2, h3, _⟩
    · refine Or.inr ⟨idx, rfl, ?_, ?_, hp⟩
      · simp [h2]
      · simp [h3]
    · exfalso
      apply hc
      rw [h3]
      simp

theorem resInv_opsecGate {cfg : Cfg} {st : MState} {m : NxcModule}
    (h : ServerInv cfg st) : ResInv cfg (opsecGate cfg st m) := by
  unfold opsecGate
  split
  · split
    · exact h
    · show ResInv cfg (if yesAnswers.contains (pyLower (cfg.answers st.pidx)) = true
        then Except.ok (promptedState st PromptKind.opsec (cfg.answers st.pidx))
        else Except.error (promptedState st PromptKind.opsec (cfg.answers st.pidx),
          LoopExit.exit1))
      split <;> exact h
  · exact h

theorem resInv_multiHostGate {cfg : Cfg} {tcount : Nat} {st : MState} {m : NxcModule}
    (h : ServerInv cfg st) : ResInv cfg (multiHostGate cfg tcount st m) := by
  unfold multiHostGate
  split
  · show ResInv cfg (if yesAnswers.contains (pyLower (cfg.answers st.pidx)) = true
      then Except.ok (promptedState st PromptKind.multiHost (cfg.answers st.pidx))
      else Except.error (promptedState st PromptKind.multiHost (cfg.answers st.pidx),
        LoopExit.exit1))
    split <;> exact h
  · exact h

theorem resInv_ntdsGate {cfg : Cfg} {st : MState}
    (h : ServerInv cfg st) : ResInv cfg (ntdsGate cfg st) := by
  unfold ntdsGate
  split
  · show ResInv cfg (if yesAnswers.contains (pyLower (cfg.answers st.pidx)) = true
      then Except.ok (promptedState st PromptKind.ntds (cfg.answers st.pidx))
      else Except.error (promptedState st PromptKind.ntds (cfg.answers st.pidx),
        LoopExit.exit1))
    split <;> exact h
  · exact h

theorem resInv_serverBlock {cfg : Cfg} {st : MState} {idx : Nat} {m : NxcModule}
    (h : ServerInv cfg st) : ResInv cfg (serverBlock cfg st idx m) := by
  unfold serverBlock
  split
  case isTrue hhook =>
    cases hreq : m.required_server with
    | some k =>
      simp only [hreq]
      split
      case isTrue hp0 =>
        have hp0' : st.server_port = 0 := by simpa using hp0
        have hcase1 : st.module_server = none ∧ st.started = [] ∧ st.bound = [] := by
          rcases h with h1 | ⟨j, _, _, _, h4⟩
          · exact h1
          · exact absurd hp0' h4
        cases htab : server_port_dict k with
        | none => exact hcase1.elim fun a b => Or.inl ⟨a, b.1, b.2⟩
        | some p =>
          have hInv : ServerInv cfg { st with server := k, server_port := p } :=
            Or.inl ⟨hcase1.1, hcase1.2.1, hcase1.2.2⟩
          exact serverInv_serverTry idx hInv (server_port_dict_pos htab)
      case isFalse hpNZ =>
        exact serverInv_serverTry idx h (by simpa using hpNZ)
    | none =>
      simp only [hreq]
      split
      case isTrue hp0 =>
        have hp0' : st.server_port = 0 := by simpa using hp0
        have hcase1 : st.module_server = none ∧ st.started = [] ∧ st.bound = [] := by
          rcases h with h1 | ⟨j, _, _, _, h4⟩
          · exact h1
          · exact absurd hp0' h4
        cases htab : server_port_dict st.server with
        | none => exact hcase1.elim fun a b => Or.inl ⟨a, b.1, b.2⟩
        | some p =>
          have hInv : ServerInv cfg { st with server_port := p } :=
            Or.inl ⟨hcase1.1, hcase1.2.1, hcase1.2.2⟩
          exact serverInv_serverTry idx hInv (server_port_dict_pos htab)
      case isFalse hpNZ =>
        exact serverInv_serverTry idx h (by simpa using hpNZ)
  case isFalse hhook => exact h

theorem resInv_processModule {cfg : Cfg} {tcount : Nat} {st : MState} {idx : Nat}
    {m : NxcModule} (h : ServerInv cfg st) :
    ResInv cfg (processModule cfg tcount st idx m) := by
  show ResInv cfg ((opsecGate cfg st m).bind fun st1 =>
    (multiHostGate cfg tcount st1 m).bind fun st2 =>
    (serverBlock cfg st2 idx m).bind fun st3 => Except.ok (attachModule st3 m))
  have h1 := @resInv_opsecGate cfg st m h
  cases ho : opsecGate cfg st m with
  | error e =>
    rw [ho] at h1
    exact h1
  | ok st1 =>
    rw [ho] at h1
    show ResInv cfg ((multiHostGate cfg tcount st1 m).bind fun st2 =>
      (serverBlock cfg st2 idx m).bind fun st3 => Except.ok (attachModule st3 m))
    have h2 := @resInv_multiHostGate cfg tcount st1 m h1
    cases hm : multiHostGate cfg tcount st1 m with
    | error e =>
      rw [hm] at h2
      exact h2
    | ok st2 =>
      rw [hm] at h2
      show ResInv cfg ((serverBlock cfg st2 idx m).bind fun st3 =>
        Except.ok (attachModule st3 m))
      have h3 := @resInv_serverBlock cfg st2 idx m h2
      cases hs : serverBlock cfg st2 idx m with
      | error e =>
        rw [hs] at h3
        exact h3
      | ok st3 =>
        rw [hs] at h3
        exact serverInv_attach m h3

theorem resInv_moduleLoop (cfg : Cfg) (tcount : Nat) :
    ∀ (names : List String) (idx : Nat) (st : MState), ServerInv cfg st →
      ResInv cfg (moduleLoop cfg tcount names idx st) := by
  intro names
  induction names with
  | nil => intro idx st h; exact h
  | cons nm rest ih =>
    intro idx st h
    unfold moduleLoop
    cases hl : cfg.registry.lookup nm with
    | none => exact h
    | some m =>
      simp only [hl]
      show ResInv cfg ((processModule cfg tcount st idx m).bind fun st2 =>
        moduleLoop cfg tcount rest (idx + 1) st2)
      have hp := @resInv_processModule cfg tcount st idx m h
      cases hpm : processModule cfg tcount st idx m with
      | error e =>
        rw [hpm] at hp
        exact hp
      | ok st2 =>
        rw [hpm] at hp
        exact ih (idx + 1) st2 hp

theorem preDispatch_full (cfg : Cfg) : PDFull cfg (preDispatch cfg) := by
  unfold preDispatch
  by_cases h1 : cfg.protocol.isNone = true
  · simp only [if_pos h1]
    exact ⟨serverInv_init cfg, Or.inl rfl⟩
  simp only [if_neg h1]
  by_cases h2 : (cfg.protocol == some "ssh" && cfg.key_file && !cfg.password) = true
  · simp only [if_pos h2]
    exact ⟨serverInv_init cfg, Or.inl rfl⟩
  simp only [if_neg h2]
  by_cases h3 : (cfg.use_kcache && !cfg.krb5ccname) = true
  · simp only [if_pos h3]
    exact ⟨serverInv_init cfg, Or.inl rfl⟩
  simp only [if_neg h3]
  cases hce : credExpand cfg.cred_id with
  | none => exact ⟨serverInv_init cfg, Or.inl rfl⟩
  | some o =>
    cases o with
    | exit1 => exact ⟨serverInv_init cfg, Or.inl rfl⟩
    | crash => exact ⟨serverInv_init cfg, Or.inl rfl⟩
    | ok l =>
      by_cases hlm : cfg.list_modules = true
      · simp only [if_pos hlm]
        exact ⟨serverInv_init cfg, Or.inr (Or.inl hlm)⟩
      simp only [if_neg hlm]
      by_cases hso : (!cfg.module.isEmpty && cfg.show_module_options) = true
      · simp only [if_pos hso]
        refine ⟨serverInv_init cfg, Or.inr (Or.inr ?_)⟩
        simp only [Bool.and_eq_true, Bool.not_eq_true'] at hso
        exact ⟨hso.1, hso.2⟩
      simp only [if_neg hso]
      have hml := resInv_moduleLoop cfg (buildTargets parse_targets cfg.target).length
        (cfg.module.map pyLower) 0 (MState.init cfg) (serverInv_init cfg)
      cases hmlr : moduleLoop cfg (buildTargets parse_targets cfg.target).length
          (cfg.module.map pyLower) 0 (MState.init cfg) with
      | error p =>
        rw [hmlr] at hml
        obtain ⟨st, ex⟩ := p
        cases ex with
        | exit1 => exact ⟨hml, Or.inl rfl⟩
        | crash => exact ⟨hml, Or.inl rfl⟩
      | ok st =>
        rw [hmlr] at hml
        dsimp only
        have hnt := @resInv_ntdsGate cfg st hml
        cases hntr : ntdsGate cfg st with
        | error p =>
          rw [hntr] at hnt
          obtain ⟨st', ex⟩ := p
          cases ex with
          | exit1 => exact ⟨hnt, Or.inl rfl⟩
          | crash => exact ⟨hnt, Or.inl rfl⟩
        | ok st' =>
          rw [hntr] at hnt
          exact ⟨hnt, rfl, st, hmlr⟩

/-- A requested module name that the registry does not know makes the
module loop fail before completing. -/
theorem moduleLoop_unknown (cfg : Cfg) (tcount : Nat) :
    ∀ (names : List String) (idx : Nat) (st : MState) (name : String),
      name ∈ names → cfg.registry.lookup name = none →
      ∀ st', moduleLoop cfg tcount names idx st ≠ Except.ok st' := by
  intro names
  induction names with
  | nil =>
    intro idx st name hmem
    exact absurd hmem (List.not_mem_nil name)
  | cons nm rest ih =>
    intro idx st name hmem hlook st' heq
    rcases List.mem_cons.mp hmem with rfl | hmem'
    · rw [moduleLoop, hlook] at heq
      cases heq
    · cases hl : cfg.registry.lookup nm with
      | none =>
        rw [moduleLoop, hl] at heq
        cases heq
      | some m =>
        rw [moduleLoop, hl] at heq
        have heq' : ((processModule cfg tcount st idx m).bind fun st2 =>
            moduleLoop cfg tcount rest (idx + 1) st2) = Except.ok st' := heq
        cases hpm : processModule cfg tcount st idx m with
        | error e =>
          rw [hpm] at heq'
          cases heq'
        | ok st2 =>
          rw [hpm] at heq'
          exact ih (idx + 1) st2 name hmem' hlook st' heq'

/-- Claim C3 (corrected): at most one listener is ever started in any run;
when the run reaches dispatch, a started listener receives exactly one stop
call during teardown (whatever the dispatch outcome), and no stop is issued
when none was started; but a run that terminates after the listener started
and before dispatch (a later module's declined prompt, unknown module, or
ntds refusal) issues no stop at all. -/
theorem c3_server_lifecycle :
    (∀ cfg : Cfg, (mainRun cfg).started.length ≤ 1) ∧
    (∀ (cfg : Cfg) (j : Nat), (mainRun cfg).reachedDispatch = true →
      (mainRun cfg).started = [j] → (mainRun cfg).stopped = [j]) ∧
    (∀ cfg : Cfg, (mainRun cfg).reachedDispatch = true →
      (mainRun cfg).started = [] → (mainRun cfg).stopped = []) ∧
    (∀ cfg : Cfg, (mainRun cfg).reachedDispatch = false → (mainRun cfg).stopped = []) := by
  refine ⟨?_, ?_, ?_, ?_⟩
  · intro cfg
    have hfull := preDispatch_full cfg
    unfold mainRun
    cases hpd : preDispatch cfg with
    | inl p =>
      obtain ⟨st, code, cr⟩ := p
      rw [hpd] at hfull
      show st.started.length ≤ 1
      rcases hfull.1 with ⟨_, h2, _⟩ | ⟨j, _, h2, _, _⟩ <;> simp [h2]
    | inr p =>
      obtain ⟨st, ts⟩ := p
      rw [hpd] at hfull
      show st.started.length ≤ 1
      rcases hfull.1 with ⟨_, h2, _⟩ | ⟨j, _, h2, _, _⟩ <;> simp [h2]
  · intro cfg j hreach hstart
    rw [mainRun] at hreach hstart ⊢
    cases hpd : preDispatch cfg with
    | inl p =>
      obtain ⟨st, code, cr⟩ := p
      rw [hpd] at hreach
      cases hreach
    | inr p =>
      obtain ⟨st, ts⟩ := p
      have hfull := preDispatch_full cfg
      rw [hpd] at hfull
      rw [hpd] at hstart
      have hstart' : st.started = [j] := hstart
      rcases hfull.1 with ⟨_, h2, _⟩ | ⟨j', h1, h2, _, _⟩
      · exact absurd (h2.symm.trans hstart') (by simp)
      · have hj : j' = j := by
          have := h2.symm.trans hstart'
          simpa using this
        show (match st.module_server with
          | some j => [j]
          | none => []) = [j]
        rw [h1, hj]
  · intro cfg hreach hstart
    rw [mainRun] at hreach hstart ⊢
    cases hpd : preDispatch cfg with
    | inl p =>
      obtain ⟨st, code, cr⟩ := p
      rw [hpd] at hreach
      cases hreach
    | inr p =>
      obtain ⟨st, ts⟩ := p
      have hfull := preDispatch_full cfg
      rw [hpd] at hfull
      rw [hpd] at hstart
      have hstart' : st.started = [] := hstart
      rcases hfull.1 with ⟨h1, h2, _⟩ | ⟨j', h1, h2, _, _⟩
      · show (match st.module_server with
          | some j => [j]
          | none => []) = []
        rw [h1]
      · exact absurd (h2.symm.trans hstart') (by simp)
  · intro cfg hreach
    rw [mainRun] at hreach ⊢
    cases hpd : preDispatch cfg with
    | inl p =>
      obtain ⟨st, code, cr⟩ := p
      rfl
    | inr p =>
      obtain ⟨st, ts⟩ := p
      rw [hpd] at hreach
      cases hreach

/-- Claim C3's "always stopped if started" is false: the first module
starts the listener, the second module's opsec prompt is declined, and the
resulting `exit(1)` propagates without running the teardown, so the started
listener never receives a stop call. -/
theorem c3_unstopped_server_counterexample :
    (mainRun cfgServerThenDecline).started = [0] ∧
    (mainRun cfgServerThenDecline).stopped = [] ∧
    (mainRun cfgServerThenDecline).exitCode = 1 := by
  decide

/-- Witness: `c3_server_lifecycle` on a run requesting two server-requiring
modules: only the first listener starts (the second bind hits the occupied
address and is caught), and teardown stops exactly that one. -/
theorem c3_witness :
    (mainRun cfgTwoServers).started.length ≤ 1 ∧
    (mainRun cfgTwoServers).stopped = [0] :=
  ⟨c3_server_lifecycle.1 cfgTwoServers,
    c3_server_lifecycle.2.1 cfgTwoServers 0 (by decide) (by decide)⟩

/-- Claim C6 (corrected): the process terminates with status 1 before any
dispatch when the protocol is missing, when ssh is selected with a key file
and no password, when the Kerberos-cache option is used without KRB5CCNAME,
when an examined credential-id range fails integer parsing (an inverted
range a > b, by contrast, expands to nothing without aborting - see the
counterexample), when a requested (lowercased) module name is unknown, and
when a safety prompt makes the module loop abort. -/
theorem c6_exit_code_one :
    (∀ cfg : Cfg, cfg.protocol = none →
      (mainRun cfg).exitCode = 1 ∧ (mainRun cfg).dispatched = [] ∧
        (mainRun cfg).reachedDispatch = false) ∧
    (∀ cfg : Cfg, cfg.protocol = some "ssh" → cfg.key_file = true → cfg.password = false →
      (mainRun cfg).exitCode = 1 ∧ (mainRun cfg).dispatched = [] ∧
        (mainRun cfg).reachedDispatch = false) ∧
    (∀ cfg : Cfg, cfg.protocol.isNone = false →
      (cfg.protocol == some "ssh" && cfg.key_file && !cfg.password) = false →
      cfg.use_kcache = true → cfg.krb5ccname = false →
      (mainRun cfg).exitCode = 1 ∧ (mainRun cfg).dispatched = [] ∧
        (mainRun cfg).reachedDispatch = false) ∧
    (∀ cfg : Cfg, cfg.protocol.isNone = false →
      (cfg.protocol == some "ssh" && cfg.key_file && !cfg.password) = false →
      (cfg.use_kcache && !cfg.krb5ccname) = false →
      credExpand cfg.cred_id = some CredOutcome.exit1 →
      (mainRun cfg).exitCode = 1 ∧ (mainRun cfg).dispatched = [] ∧
        (mainRun cfg).reachedDispatch = false) ∧
    (∀ (cfg : Cfg) (name : String), cfg.list_modules = false →
      cfg.show_module_options = false → name ∈ cfg.module.map pyLower →
      cfg.registry.lookup name = none →
      (mainRun cfg).exitCode = 1 ∧ (mainRun cfg).dispatched = [] ∧
        (mainRun cfg).reachedDispatch = false) ∧
    (∀ (cfg : Cfg) (st : MState) (l : List CElem), cfg.protocol.isNone = false →
      (cfg.protocol == some "ssh" && cfg.key_file && !cfg.password) = false →
      (cfg.use_kcache && !cfg.krb5ccname) = false →
      credExpand cfg.cred_id = some (CredOutcome.ok l) →
      cfg.list_modules = false → cfg.show_module_options = false →
      moduleLoop cfg (buildTargets parse_targets cfg.target).length
          (cfg.module.map pyLower) 0 (MState.init cfg) =
        Except.error (st, LoopExit.exit1) →
      (mainRun cfg).exitCode = 1 ∧ (mainRun cfg).dispatched = [] ∧
        (mainRun cfg).reachedDispatch = false) := by
  refine ⟨?_, ?_, ?_, ?_, ?_, ?_⟩
  · intro cfg hp
    have h1 : cfg.protocol.isNone = true := by simp [hp]
    simp [mainRun, preDispatch, h1, preDispatchExit]
  · intro cfg hp hk hpw
    have h1 : cfg.protocol.isNone = false := by simp [hp]
    have h2 : (cfg.protocol == some "ssh" && cfg.key_file && !cfg.password) = true := by
      simp [hp, hk, hpw]
    simp [mainRun, preDispatch, h1, h2, preDispatchExit]
  · intro cfg h1 h2 hk he
    have h3 : (cfg.use_kcache && !cfg.krb5ccname) = true := by simp [hk, he]
    simp [mainRun, preDispatch, h1, h2, h3, preDispatchExit]
  · intro cfg h1 h2 h3 hcred
    simp [mainRun, preDispatch, h1, h2, h3, hcred, preDispatchExit]
  · intro cfg name hlm hso hmem hlook
    have hfull := preDispatch_full cfg
    unfold mainRun
    cases hpd : preDispatch cfg with
    | inr p =>
      obtain ⟨st, ts⟩ := p
      rw [hpd] at hfull
      obtain ⟨_, _, st2, hok⟩ := hfull
      exact absurd hok (moduleLoop_unknown cfg _ _ 0 _ name hmem hlook st2)
    | inl p =>
      obtain ⟨st, code, cr⟩ := p
      rw [hpd] at hfull
      obtain ⟨_, hcode⟩ := hfull
      rcases hcode with rfl | hlm' | ⟨_, hso'⟩
      · exact ⟨rfl, rfl, rfl⟩
      · exact absurd hlm' (by simp [hlm])
      · exact absurd hso' (by simp [hso])
  · intro cfg st l h1 h2 h3 hcred hlm hso hml
    simp [mainRun, preDispatch, h1, h2, h3, hcred, hlm, hso, hml, preDispatchExit]

/-- Claim C6's "malformed credential-id range" case is false for inverted
ranges: `"9-1"` (a > b, malformed by the spec's definition) does not abort;
the run proceeds to dispatch and exits 0. -/
theorem c6_inverted_range_counterexample :
    credExpand [CElem.s "9-1"] = some (CredOutcome.ok []) ∧
    (mainRun { baseCfg with cred_id := [CElem.s "9-1"] }).exitCode = 0 ∧
    (mainRun { baseCfg with cred_id := [CElem.s "9-1"] }).reachedDispatch = true := by
  decide

/-- Witness: `c6_exit_code_one` at concrete runs for each abort case. -/
theorem c6_witness :
    ((mainRun { baseCfg with protocol := none }).exitCode = 1 ∧
      (mainRun { baseCfg with protocol := none }).dispatched = [] ∧
      (mainRun { baseCfg with protocol := none }).reachedDispatch = false) ∧
    ((mainRun { baseCfg with protocol := some "ssh", key_file := true }).exitCode = 1 ∧
      (mainRun { baseCfg with protocol := some "ssh", key_file := true }).dispatched = [] ∧
      (mainRun { baseCfg with protocol := some "ssh", key_file := true }).reachedDispatch =
        false) ∧
    ((mainRun { baseCfg with use_kcache := true }).exitCode = 1 ∧
      (mainRun { baseCfg with use_kcache := true }).dispatched = [] ∧
      (mainRun { baseCfg with use_kcache := true }).reachedDispatch = false) ∧
    ((mainRun { baseCfg with cred_id := [CElem.s "a-b"] }).exitCode = 1 ∧
      (mainRun { baseCfg with cred_id := [CElem.s "a-b"] }).dispatched = [] ∧
      (mainRun { baseCfg with cred_id := [CElem.s "a-b"] }).reachedDispatch = false) ∧
    ((mainRun { baseCfg with module := ["nope"] }).exitCode = 1 ∧
      (mainRun { baseCfg with module := ["nope"] }).dispatched = [] ∧
      (mainRun { baseCfg with module := ["nope"] }).reachedDispatch = false) ∧
    ((mainRun cfgServerThenDecline).exitCode = 1 ∧
      (mainRun cfgServerThenDecline).dispatched = [] ∧
      (mainRun cfgServerThenDecline).reachedDispatch = false) :=
  ⟨c6_exit_code_one.1 { baseCfg with protocol := none } (by decide),
    c6_exit_code_one.2.1 { baseCfg with protocol := some "ssh", key_file := true }
      (by decide) (by decide) (by decide),
    c6_exit_code_one.2.2.1 { baseCfg with use_kcache := true }
      (by decide) (by decide) (by decide) (by decide),
    c6_exit_code_one.2.2.2.1 { baseCfg with cred_id := [CElem.s "a-b"] }
      (by decide) (by decide) (by decide) (by decide),
    c6_exit_code_one.2.2.2.2.1 { baseCfg with module := ["nope"] } "nope"
      (by decide) (by decide) (by decide) (by decide),
    c6_exit_code_one.2.2.2.2.2 cfgServerThenDecline
      (promptedState { MState.init cfgServerThenDecline with
        server := "http"
        server_port := 80
        module_server := some 0
        started := [0]
        bound := [("127.0.0.1", 80)]
        attached := [srvModule] } PromptKind.opsec "n") []
      (by decide) (by decide) (by decide) (by decide) (by decide) (by decide) (by decide)⟩

/-- Witness: `c7_server_kind_port` at a hook-bearing module forcing kind
http with an unset port (resolved to 80), at an occupied address (start
failure caught, no new start), and at gate-passing module processing. -/
theorem c7_witness :
    serverBlock baseCfg (MState.init baseCfg) 0 srvModule =
      Except.ok (serverTry baseCfg
        { MState.init baseCfg with server := "http", server_port := 80 } 0) ∧
    serverTry baseCfg stPort80 0 = stPort80 ∧
    processModule baseCfg 1 (MState.init baseCfg) 0 srvModule =
      Except.map (fun s => attachModule s srvModule)
        (serverBlock baseCfg (MState.init baseCfg) 0 srvModule) :=
  ⟨(c7_server_kind_port.2.1 baseCfg (MState.init baseCfg) 0 srvModule (by decide)).1
      (by decide) 80 (by decide),
    c7_server_kind_port.2.2.2.1 baseCfg stPort80 0 (by decide),
    c7_server_kind_port.2.2.2.2 baseCfg 1 (MState.init baseCfg) 0 srvModule
      (by decide) (by decide)⟩
